import Mathlib

/-!
# Verification of the repository-info resolution logic

Shallow embedding of `src/clients/repositoryinfoclient.ts` (class
`RepositoryInfoClient`).  The pure string helpers (`splitTfvcCollectionUrl`,
`trimTrailingSeparators`, `getTfvcRepoInfoBlob`) are translated directly.
The effectful method `GetRepositoryInfo` is translated as a function over an
explicit environment of external collaborators (the REST/SOAP clients), an
explicit repository-context state (whose `RemoteUrl` field the method may
rewrite), and an explicit trace of the outward calls it performs.
-/

namespace Vsts

/-- JS `String.substring(a, b)` for the `0 ≤ a ≤ b ≤ length` uses in this file. -/
def jsSubstring (s : String) (a b : Nat) : String := ⟨(s.data.take b).drop a⟩

/-- JS `String.substring(a)` (from index `a` to the end). -/
def jsSubstringFrom (s : String) (a : Nat) : String := ⟨s.data.drop a⟩

/-- JS `String.lastIndexOf` for a one-character search string: the greatest
index at which `c` occurs, or `-1` when it does not occur.  The characters
strictly after the last occurrence are exactly the longest suffix free of `c`,
i.e. `s.data.reverse.takeWhile (· != c)`. -/
def lastIndexOf (s : String) (c : Char) : Int :=
  let after := s.data.reverse.takeWhile (· != c)
  if after.length = s.data.length then -1
  else ((s.data.length - after.length : Nat) : Int) - 1

/-- `trimTrailingSeparators` (repositoryinfoclient.ts, lines 158–170): the JS
loop walks `lastIndex` back over every trailing `'/'` and returns
`substring(0, lastIndex)`; on the empty (falsy) string the input is returned
unchanged.  Both behaviours are "drop the longest run of trailing slashes". -/
def trimTrailingSeparators (uri : String) : String :=
  ⟨(uri.data.reverse.dropWhile (· == '/')).reverse⟩

/-- `splitTfvcCollectionUrl` (repositoryinfoclient.ts, lines 135–156).  The JS
function builds `const result: string[] = [ , ];` — a two-slot array whose
entries are `undefined` — and returns it untouched when `collectionUrl` is
falsy (the empty string); we render the possibly-`undefined` entries as
`Option String`. -/
def splitTfvcCollectionUrl (collectionUrl : String) : Option String × Option String :=
  if collectionUrl = "" then (none, none)
  else
    let trimmedUrl := trimTrailingSeparators collectionUrl
    let index := lastIndexOf trimmedUrl '/'
    if 0 ≤ index then
      -- result[0] is the server url without the collection name,
      -- result[1] is just the collection name (no separators)
      (some (jsSubstring trimmedUrl 0 (index.toNat + 1)),
       some (jsSubstringFrom trimmedUrl (index.toNat + 1)))
    else
      -- the collection name cannot be determined, so it is left empty
      (some collectionUrl, some "")

/-- The decomposition as §4.1 of the spec words it (for the refinement claim):
"strip trailing `/` characters from the URL, then split at the last remaining
`/` — the suffix is the collection name, the prefix (including its trailing
`/`) is the server base URL.  If the URL contains no `/`, the whole string is
the server URL and the collection name is empty." -/
def splitSpec (url : String) : String × String :=
  let stripped : List Char := (url.data.reverse.dropWhile (· == '/')).reverse
  if '/' ∈ stripped then
    let name := (stripped.reverse.takeWhile (· != '/')).reverse
    (⟨stripped.take (stripped.length - name.length)⟩, ⟨name⟩)
  else (url, "")

/-- Keep everything up to and including the last `'/'` of `s` (empty when `s`
has no `'/'`). -/
def keepThroughLastSlash (s : String) : String :=
  ⟨s.data.take (s.data.length - (s.data.reverse.takeWhile (· != '/')).length)⟩

/-- Does `pat` occur as a contiguous run inside `l`? -/
def containsSub (pat : List Char) : List Char → Bool
  | [] => pat.isEmpty
  | c :: t => pat.isPrefixOf (c :: t) || containsSub pat t

/-- Split off the part before the first `://` and the part after it, or `none`
when the separator does not occur. -/
def breakOnScheme : List Char → Option (List Char × List Char)
  | ':' :: '/' :: '/' :: rest => some ([], rest)
  | c :: t => (breakOnScheme t).map (fun p => (c :: p.1, p.2))
  | [] => none

/-- Model of Node's `url.resolve` restricted to the shapes this file feeds it:
an absolute `scheme://authority[/path]` base (or a plain path) and a relative
reference that is a bare path segment or `""`.  Per RFC 3986 relative
resolution, the reference replaces everything after the last `/` of the
base's path; a base with no path component gets `/` and the reference
appended. -/
def urlResolve (base rel : String) : String :=
  match breakOnScheme base.data with
  | some (scheme, rest) =>
    if rest.contains '/' then
      (⟨scheme⟩ : String) ++ "://" ++ keepThroughLastSlash ⟨rest⟩ ++ rel
    else (⟨scheme⟩ : String) ++ "://" ++ (⟨rest⟩ : String) ++ "/" ++ rel
  | none => if base.data.contains '/' then keepThroughLastSlash base ++ rel else rel

/-- Modelled from the spec: `RepoUtils.IsTeamFoundationServicesRepo` lives in
`src/helpers/repoutils.ts`, which is not among the provided sources.  The spec
(§9, glossary) describes hosted-family detection as "a pattern match on the
URL string itself" against the "uniform `{account}.visualstudio.com`
addressing", i.e. the URL mentions the hosted-service domain. -/
def isTeamFoundationServicesRepo (url : String) : Bool :=
  containsSub ".visualstudio.com".data url.data

/-- Modelled from the spec: `RepositoryInfo.Account` lives in
`src/info/repositoryinfo.ts`, which is not among the provided sources.  The
spec describes it as the "account name (derived from URL for hosted family)"
and scenario A maps `https://fabrikam.visualstudio.com` to account
`fabrikam`: the leading label of the URL's host. -/
def accountFromRemoteUrl (url : String) : String :=
  let host := match breakOnScheme url.data with
              | some (_, rest) => rest
              | none => url.data
  ⟨host.takeWhile (· != '.')⟩

/-- `RepositoryType` (from `src/contexts/repositorycontext.ts`, not among the
provided sources); only the members this file tests for are modelled. -/
inductive RepositoryType where
  | GIT
  | TFVC
  | EXTERNAL
deriving DecidableEq

/-- The slice of `IRepositoryContext` that `GetRepositoryInfo` reads, plus the
`RemoteUrl` field of `TfvcContext` that it may rewrite. -/
structure RepoContext where
  type : RepositoryType
  remoteUrl : String
  teamProjectName : String
deriving DecidableEq

/-- The error object thrown by the underlying clients; `validateTfvcCollectionUrl`
inspects its `statusCode` field (absent on non-HTTP failures). -/
structure HttpError where
  statusCode : Option Nat
deriving DecidableEq

/-- The fields of `TeamProjectCollection` that `GetRepositoryInfo` reads. -/
structure TeamProjectCollection where
  id : String
  name : String
  url : String
deriving DecidableEq

/-- The fields of `TeamProject` that `GetRepositoryInfo` reads. -/
structure TeamProject where
  id : String
  name : String
  description : String
  url : String
deriving DecidableEq

/-- The `project` sub-object of the blob built by `getTfvcRepoInfoBlob`. -/
structure ProjectBlob where
  id : String
  name : String
  description : String
  url : String
  state : Nat
  revision : Nat
deriving DecidableEq

/-- The `repository` sub-object of the blob built by `getTfvcRepoInfoBlob`. -/
structure RepositoryBlob where
  id : String
  name : String
  url : String
  project : ProjectBlob
  remoteUrl : String
deriving DecidableEq

/-- The `collection` sub-object of the blob built by `getTfvcRepoInfoBlob`. -/
structure CollectionBlob where
  id : String
  name : String
  url : String
deriving DecidableEq

/-- The blob built by `getTfvcRepoInfoBlob` (repositoryinfoclient.ts,
lines 173–197). -/
structure RepoInfoBlob where
  serverUrl : String
  collection : CollectionBlob
  repository : RepositoryBlob
deriving DecidableEq

/-- `getTfvcRepoInfoBlob` (repositoryinfoclient.ts, lines 173–197). -/
def getTfvcRepoInfoBlob (serverUrl collectionId collectionName collectionUrl
    projectId projectName projectDesc projectUrl : String) : RepoInfoBlob :=
  { serverUrl := serverUrl
    collection := { id := collectionId, name := collectionName, url := collectionUrl }
    repository :=
      { id := "00000000-0000-0000-0000-000000000000"
        name := "NoNameTfvcRepository"
        url := serverUrl
        project :=
          { id := projectId, name := projectName, description := projectDesc
            url := projectUrl, state := 1, revision := 15 }
        remoteUrl := serverUrl } }

/-- The environment of external collaborators (the transport clients declared
out of scope by the spec, §1/§6), each as a pure oracle:
* `apiValidate` — `TeamServicesApi(url).validateTfvcCollectionUrl()`: succeeds
  or throws an `HttpError`;
* `getVstsInfo` — `TeamServicesApi(url).getVstsInfo()` on the Git path (its
  payload is consumed only by the external `RepositoryInfo` constructor, so
  no field of it is needed here);
* `restGetProjectCollection` — `CoreApiClient.GetProjectCollection(serverUrl,
  collectionName)` (REST);
* `soapGetProjectCollection` — `TfsCatalogSoapClient(serverUrl).
  GetProjectCollection(collectionName)` (legacy SOAP); may resolve to no
  object, rendered as `none`;
* `getTeamProject` — `CoreApiClient.GetTeamProject(remoteUrl,
  teamProjectName)` (REST). -/
structure Env where
  apiValidate : String → Except HttpError Unit
  getVstsInfo : String → Except HttpError Unit
  restGetProjectCollection : String → String → Except HttpError TeamProjectCollection
  soapGetProjectCollection : String → String → Except HttpError (Option TeamProjectCollection)
  getTeamProject : String → String → Except HttpError TeamProject

/-- One outward call made during a resolution, recording which client and
which arguments were used. -/
inductive Event where
  | vstsInfoFetch (url : String)
  | validateCall (url : String)
  | restCollectionFetch (serverUrl collectionName : String)
  | soapCollectionFetch (serverUrl collectionName : String)
  | restProjectFetch (url teamProjectName : String)
deriving DecidableEq

/-- Is the event a collection-URL validation call? -/
def Event.isValidate : Event → Bool
  | .validateCall _ => true
  | _ => false

/-- Is the event a REST collection fetch? -/
def Event.isRestCollection : Event → Bool
  | .restCollectionFetch _ _ => true
  | _ => false

/-- Is the event a legacy SOAP collection fetch? -/
def Event.isSoapCollection : Event → Bool
  | .soapCollectionFetch _ _ => true
  | _ => false

/-- The errors `GetRepositoryInfo` can throw: transport errors propagated from
the collaborators, and the three `throw new Error(...)` sites of the resolver
(each modelled with the data its message interpolates).  `undefinedAddress`
stands for the one corner the TS leaves to dynamic typing: an empty remote
URL that nevertheless validates makes `splitTfvcCollectionUrl` return
`undefined` entries, which the subsequent steps would feed to the collectors
as the JS value `undefined`. -/
inductive ResolveError where
  | transport (err : HttpError)
  | validationFailedTeamServices (collectionName serverUrl : String)
  | validationFailedDefaultCollection
  | soapCollectionNotFound (collectionName serverUrl : String)
  | undefinedAddress
deriving DecidableEq

/-- `validateTfvcCollectionUrl` (repositoryinfoclient.ts, lines 203–215): a
successful client call yields `true`; a thrown error with `statusCode === 404`
yields `false`; any other thrown error is rethrown. -/
def validateTfvcCollectionUrl (env : Env) (serverUrl : String) : Except HttpError Bool :=
  match env.apiValidate serverUrl with
  | .ok _ => .ok true
  | .error err => if err.statusCode = some 404 then .ok false else .error err

/-- The address-resolution phase of `GetRepositoryInfo` for the TFVC/EXTERNAL
branch (repositoryinfoclient.ts, lines 47–93): produces the trace of
validation calls, the (possibly rewritten) context, and either the resolved
`(serverUrl, collectionName)` pair or the error thrown. -/
def resolveTfvcAddress (env : Env) (ctx : RepoContext) :
    List Event × RepoContext × Except ResolveError (String × String) :=
  if isTeamFoundationServicesRepo ctx.remoteUrl then
    -- lines 50–64: the collection is the account name and the server URL is
    -- rebuilt from it
    let collectionName := accountFromRemoteUrl ctx.remoteUrl
    let serverUrl := "https://" ++ collectionName ++ ".visualstudio.com/"
    match validateTfvcCollectionUrl env serverUrl with
    | .error err => ([.validateCall serverUrl], ctx, .error (.transport err))
    | .ok false =>
      ([.validateCall serverUrl], ctx,
       .error (.validationFailedTeamServices collectionName serverUrl))
    | .ok true => ([.validateCall serverUrl], ctx, .ok (serverUrl, collectionName))
  else
    -- lines 65–93: try the url as given; if that fails, assume it is a server
    -- url and the collection is the default collection
    let serverUrl := ctx.remoteUrl
    match validateTfvcCollectionUrl env serverUrl with
    | .error err => ([.validateCall serverUrl], ctx, .error (.transport err))
    | .ok true =>
      match splitTfvcCollectionUrl serverUrl with
      | (some s, some c) => ([.validateCall serverUrl], ctx, .ok (s, c))
      | _ => ([.validateCall serverUrl], ctx, .error .undefinedAddress)
    | .ok false =>
      let collectionName := "DefaultCollection"
      let remoteUrl := urlResolve serverUrl collectionName
      match validateTfvcCollectionUrl env remoteUrl with
      | .error err =>
        ([.validateCall serverUrl, .validateCall remoteUrl], ctx, .error (.transport err))
      | .ok false =>
        ([.validateCall serverUrl, .validateCall remoteUrl], ctx,
         .error .validationFailedDefaultCollection)
      | .ok true =>
        -- lines 86–90: having validated with the default collection, the repo
        -- context's RemoteUrl is updated — but only for a TFVC-typed context
        let ctx' := if ctx.type = RepositoryType.TFVC
                    then { ctx with remoteUrl := remoteUrl } else ctx
        ([.validateCall serverUrl, .validateCall remoteUrl], ctx',
         .ok (serverUrl, collectionName))

/-- The fetch phase of `GetRepositoryInfo` for the TFVC/EXTERNAL branch
(repositoryinfoclient.ts, lines 95–130): fetch the project collection (REST
when `isTeamServices`, SOAP otherwise — an absent SOAP result is converted to
a thrown error), then fetch the team project through the REST
`CoreApiClient` (via `getProjectFromServer`, lines 199–201), then build the
info blob. -/
def fetchPhase (env : Env) (isTeamServices : Bool)
    (serverUrl collectionName teamProjectName : String) :
    List Event × Except ResolveError RepoInfoBlob :=
  let projectPhase : TeamProjectCollection → List Event × Except ResolveError RepoInfoBlob :=
    fun collection =>
      -- line 117: for a Team Services collection, ignore the collectionName
      let resolvedRemoteUrl :=
        urlResolve serverUrl (if isTeamServices then "" else collection.name)
      match env.getTeamProject resolvedRemoteUrl teamProjectName with
      | .error err =>
        ([.restProjectFetch resolvedRemoteUrl teamProjectName], .error (.transport err))
      | .ok project =>
        ([.restProjectFetch resolvedRemoteUrl teamProjectName],
         .ok (getTfvcRepoInfoBlob serverUrl collection.id collection.name collection.url
                project.id project.name project.description project.url))
  if isTeamServices then
    match env.restGetProjectCollection serverUrl collectionName with
    | .error err =>
      ([.restCollectionFetch serverUrl collectionName], .error (.transport err))
    | .ok collection =>
      let rest := projectPhase collection
      (.restCollectionFetch serverUrl collectionName :: rest.1, rest.2)
  else
    match env.soapGetProjectCollection serverUrl collectionName with
    | .error err =>
      ([.soapCollectionFetch serverUrl collectionName], .error (.transport err))
    | .ok none =>
      -- lines 107–111: no collection object found via SOAP → throw
      ([.soapCollectionFetch serverUrl collectionName],
       .error (.soapCollectionNotFound collectionName serverUrl))
    | .ok (some collection) =>
      let rest := projectPhase collection
      (.soapCollectionFetch serverUrl collectionName :: rest.1, rest.2)

/-- What a successful `GetRepositoryInfo` call produced.  On the Git path the
`RepositoryInfo` value is built by external collaborators from the
`getVstsInfo` payload, so it carries no data the claims need. -/
inductive Outcome where
  | gitResolved
  | tfvcResolved (blob : RepoInfoBlob)
deriving DecidableEq

deriving instance DecidableEq for Except

/-- The observable result of a `GetRepositoryInfo` call: the outward calls
made, the final repository context (its `RemoteUrl` may have been rewritten),
and the returned value or thrown error. -/
structure RunResult where
  trace : List Event
  finalCtx : RepoContext
  result : Except ResolveError Outcome
deriving DecidableEq

/-- `GetRepositoryInfo` (repositoryinfoclient.ts, lines 29–133), as a function
of the collaborator environment and the repository context. -/
def getRepositoryInfo (env : Env) (ctx : RepoContext) : RunResult :=
  match ctx.type with
  | .GIT =>
    { trace := [.vstsInfoFetch ctx.remoteUrl]
      finalCtx := ctx
      result := match env.getVstsInfo ctx.remoteUrl with
                | .ok _ => .ok .gitResolved
                | .error err => .error (.transport err) }
  | .TFVC | .EXTERNAL =>
    let isTeamServices := isTeamFoundationServicesRepo ctx.remoteUrl
    match resolveTfvcAddress env ctx with
    | (tr, ctx', .error err) => { trace := tr, finalCtx := ctx', result := .error err }
    | (tr, ctx', .ok (serverUrl, collectionName)) =>
      let fetched := fetchPhase env isTeamServices serverUrl collectionName ctx.teamProjectName
      { trace := tr ++ fetched.1
        finalCtx := ctx'
        result := fetched.2.map .tfvcResolved }

/-- A collaborator environment whose every call fails with a 404-style error. -/
def env404 : Env :=
  ⟨fun _ => Except.error ⟨some 404⟩,
   fun _ => Except.error ⟨none⟩,
   fun _ _ => Except.error ⟨none⟩,
   fun _ _ => Except.error ⟨none⟩,
   fun _ _ => Except.error ⟨none⟩⟩

/-- An environment whose validation client accepts every URL. -/
def envAllOk : Env := { env404 with apiValidate := fun _ => Except.ok () }

/-- An environment whose SOAP catalog client finds no collection object. -/
def envSoapNone : Env :=
  { envAllOk with soapGetProjectCollection := fun _ _ => Except.ok none }

/-- An environment where validating the literal on-prem URL fails with 404 and
validating the URL the code derives for the default-collection fallback
succeeds. -/
def envDefaultOk : Env :=
  { env404 with apiValidate := fun u =>
      if u = "https://tfsserver/DefaultCollection" then Except.ok ()
      else Except.error ⟨some 404⟩ }

/-- An environment for a successful on-prem run: every validation succeeds,
the SOAP catalog client finds the collection, and the REST core client finds
the team project. -/
def envC2 : Env :=
  ⟨fun _ => Except.ok (),
   fun _ => Except.error ⟨none⟩,
   fun _ _ => Except.error ⟨none⟩,
   fun _ _ => Except.ok (some ⟨"cid", "DefaultCollection", "http://colurl"⟩),
   fun _ _ => Except.ok ⟨"pid", "Proj", "desc", "purl"⟩⟩

/-- An on-prem TFVC context whose remote URL is a full collection URL. -/
def ctxC2 : RepoContext :=
  ⟨RepositoryType.TFVC, "http://tfsserver:8080/tfs/DefaultCollection", "Proj"⟩

/-- An environment where the only URL the validation client accepts is the
default-collection candidate that the spec expects the code to construct by
appending `DefaultCollection` to the remote URL `https://tfsserver/tfs`. -/
def envC1 : Env :=
  { env404 with apiValidate := fun u =>
      if u = "https://tfsserver/tfs/DefaultCollection" then Except.ok ()
      else Except.error ⟨some 404⟩ }

/-- The TFVC context of end-to-end scenario C. -/
def ctxC1 : RepoContext := ⟨RepositoryType.TFVC, "https://tfsserver/tfs", "TeamProj"⟩

lemma length_takeWhileNe_lt_of_mem {D : List Char} (hc : '/' ∈ D) :
    (D.takeWhile (· != '/')).length < D.length := by
  rcases lt_or_ge (D.takeWhile (· != '/')).length D.length with hlt | hge
  · exact hlt
  · exfalso
    have hpre : D.takeWhile (· != '/') <+: D := List.takeWhile_prefix _
    have hlen : (D.takeWhile (· != '/')).length = D.length :=
      le_antisymm hpre.length_le hge
    have heq : D.takeWhile (· != '/') = D := hpre.eq_of_length hlen
    have hm : '/' ∈ D.takeWhile (· != '/') := by rw [heq]; exact hc
    have := List.mem_takeWhile_imp hm
    simp at this

lemma length_takeWhileNe_eq_of_not_mem {D : List Char} (hc : '/' ∉ D) :
    (D.takeWhile (· != '/')).length = D.length := by
  have heq : D.takeWhile (· != '/') = D := by
    rw [List.takeWhile_eq_self_iff]
    intro x hx
    have hne : x ≠ '/' := fun he => hc (he ▸ hx)
    simpa using hne
  rw [heq]

lemma reverse_drop_takeWhileNe (D : List Char) :
    D.reverse.drop (D.length - (D.takeWhile (· != '/')).length)
      = (D.takeWhile (· != '/')).reverse := by
  have hAB := List.takeWhile_append_dropWhile (· != '/') D
  have hrev : D.reverse = (D.dropWhile (· != '/')).reverse
      ++ (D.takeWhile (· != '/')).reverse := by
    have h2 := congrArg List.reverse hAB
    rw [List.reverse_append] at h2
    exact h2.symm
  have hlen : ((D.dropWhile (· != '/')).reverse).length
      = D.length - (D.takeWhile (· != '/')).length := by
    have h3 := congrArg List.length hAB
    rw [List.length_append] at h3
    rw [List.length_reverse]
    omega
  rw [hrev]
  exact List.drop_left' hlen

/-- Claim C3: for every non-empty URL string, the decomposition agrees with the
spec's description — strip trailing `/` characters, split at the last
remaining `/`, the suffix is the collection name and the prefix including
that `/` is the server base URL; with no `/` remaining, the whole input is
the server URL and the collection name is empty. -/
theorem splitTfvc_refines_spec (url : String) (h : url ≠ "") :
    splitTfvcCollectionUrl url = (some (splitSpec url).1, some (splitSpec url).2) := by
  simp only [splitTfvcCollectionUrl, splitSpec, trimTrailingSeparators, lastIndexOf,
    jsSubstring, jsSubstringFrom, if_neg h, List.reverse_reverse, List.length_reverse,
    List.drop_zero]
  set D : List Char := url.data.reverse.dropWhile (· == '/') with hD
  by_cases hc : '/' ∈ D.reverse
  · have hcD : '/' ∈ D := List.mem_reverse.mp hc
    have hlt : (D.takeWhile (· != '/')).length < D.length := length_takeWhileNe_lt_of_mem hcD
    rw [if_pos hc]
    simp only [if_neg (by omega : ¬ (D.takeWhile (· != '/')).length = D.length)]
    rw [if_pos (by omega : (0:Int) ≤ ((D.length - (D.takeWhile (· != '/')).length : Nat) : Int) - 1)]
    have ht : ((((D.length - (D.takeWhile (· != '/')).length : Nat) : Int) - 1).toNat + 1)
        = D.length - (D.takeWhile (· != '/')).length := by omega
    rw [ht, reverse_drop_takeWhileNe]
  · have heq : (D.takeWhile (· != '/')).length = D.length :=
      length_takeWhileNe_eq_of_not_mem (fun hm => hc (List.mem_reverse.mpr hm))
    rw [if_neg hc]
    simp only [if_pos heq]
    rw [if_neg (by decide : ¬ (0:Int) ≤ -1)]

lemma resolve_events_validate (env : Env) (ctx : RepoContext) :
    ∀ e ∈ (resolveTfvcAddress env ctx).1, e.isValidate = true := by
  intro e he
  unfold resolveTfvcAddress at he
  dsimp only at he
  split at he <;> (try split at he) <;> (try split at he) <;> (try split at he) <;>
    simp only [List.mem_singleton, List.mem_cons, List.not_mem_nil, or_false] at he <;>
    (first | (subst he; rfl) | (rcases he with rfl | rfl <;> rfl))

lemma fetch_no_validate (env : Env) (b : Bool) (s c t : String) :
    (fetchPhase env b s c t).1.filter Event.isValidate = [] := by
  unfold fetchPhase
  cases b <;> split <;> (try split) <;> simp [Event.isValidate]
  all_goals
    intro a ha
    split at ha <;> simp at ha <;> (subst ha; rfl)

lemma fetch_true_no_soap (env : Env) (s c t : String) :
    (fetchPhase env true s c t).1.filter Event.isSoapCollection = [] := by
  unfold fetchPhase
  split <;> (try split) <;> simp_all [Event.isSoapCollection]
  all_goals
    intro a ha
    split at ha <;> simp at ha <;> (subst ha; rfl)

lemma fetch_false_no_rest (env : Env) (s c t : String) :
    (fetchPhase env false s c t).1.filter Event.isRestCollection = [] := by
  unfold fetchPhase
  split <;> (try split) <;> simp_all [Event.isRestCollection]
  all_goals
    intro a ha
    split at ha <;> simp at ha <;> (subst ha; rfl)

lemma resolve_no_soap (env : Env) (ctx : RepoContext) :
    (resolveTfvcAddress env ctx).1.filter Event.isSoapCollection = [] := by
  rw [List.filter_eq_nil_iff]
  intro a ha
  have hv := resolve_events_validate env ctx a ha
  cases a <;> simp [Event.isSoapCollection] <;> simp [Event.isValidate] at hv

lemma resolve_no_rest (env : Env) (ctx : RepoContext) :
    (resolveTfvcAddress env ctx).1.filter Event.isRestCollection = [] := by
  rw [List.filter_eq_nil_iff]
  intro a ha
  have hv := resolve_events_validate env ctx a ha
  cases a <;> simp [Event.isRestCollection] <;> simp [Event.isValidate] at hv

lemma resolve_ctx_of_ne_tfvc (env : Env) (ctx : RepoContext) (h : ctx.type ≠ RepositoryType.TFVC) :
    (resolveTfvcAddress env ctx).2.1 = ctx := by
  unfold resolveTfvcAddress
  dsimp only
  split <;> (try split) <;> (try split) <;> (try split) <;> simp [h]

lemma run_finalCtx_eq (env : Env) (ctx : RepoContext)
    (h : ctx.type = RepositoryType.TFVC ∨ ctx.type = RepositoryType.EXTERNAL) :
    (getRepositoryInfo env ctx).finalCtx = (resolveTfvcAddress env ctx).2.1 := by
  rcases hres : resolveTfvcAddress env ctx with ⟨tr, ctx2, res⟩
  rcases h with h | h <;>
    (unfold getRepositoryInfo; rw [h]) <;>
    (cases res <;> simp [hres])

lemma run_eq_of_resolve_error (env : Env) (ctx : RepoContext)
    (h : ctx.type = RepositoryType.TFVC ∨ ctx.type = RepositoryType.EXTERNAL)
    (tr : List Event) (ctx2 : RepoContext) (err : ResolveError)
    (hres : resolveTfvcAddress env ctx = (tr, ctx2, Except.error err)) :
    getRepositoryInfo env ctx = ⟨tr, ctx2, Except.error err⟩ := by
  rcases h with h | h <;> (unfold getRepositoryInfo; rw [h]; simp [hres])

lemma run_eq_of_resolve_ok (env : Env) (ctx : RepoContext)
    (h : ctx.type = RepositoryType.TFVC ∨ ctx.type = RepositoryType.EXTERNAL)
    (tr : List Event) (ctx2 : RepoContext) (s c : String)
    (hres : resolveTfvcAddress env ctx = (tr, ctx2, Except.ok (s, c))) :
    getRepositoryInfo env ctx =
      ⟨tr ++ (fetchPhase env (isTeamFoundationServicesRepo ctx.remoteUrl) s c
                ctx.teamProjectName).1,
       ctx2,
       (fetchPhase env (isTeamFoundationServicesRepo ctx.remoteUrl) s c
                ctx.teamProjectName).2.map Outcome.tfvcResolved⟩ := by
  rcases h with h | h <;> (unfold getRepositoryInfo; rw [h]; simp [hres])

lemma resolve_hosted_valid (env : Env) (ctx : RepoContext)
    (hTS : isTeamFoundationServicesRepo ctx.remoteUrl = true)
    (hv : validateTfvcCollectionUrl env
        ("https://" ++ accountFromRemoteUrl ctx.remoteUrl ++ ".visualstudio.com/")
      = Except.ok true) :
    resolveTfvcAddress env ctx =
      ([Event.validateCall
          ("https://" ++ accountFromRemoteUrl ctx.remoteUrl ++ ".visualstudio.com/")],
       ctx,
       Except.ok ("https://" ++ accountFromRemoteUrl ctx.remoteUrl ++ ".visualstudio.com/",
                  accountFromRemoteUrl ctx.remoteUrl)) := by
  unfold resolveTfvcAddress
  simp [hTS, hv]

lemma resolve_hosted_invalid (env : Env) (ctx : RepoContext)
    (hTS : isTeamFoundationServicesRepo ctx.remoteUrl = true)
    (hv : validateTfvcCollectionUrl env
        ("https://" ++ accountFromRemoteUrl ctx.remoteUrl ++ ".visualstudio.com/")
      = Except.ok false) :
    resolveTfvcAddress env ctx =
      ([Event.validateCall
          ("https://" ++ accountFromRemoteUrl ctx.remoteUrl ++ ".visualstudio.com/")],
       ctx,
       Except.error (ResolveError.validationFailedTeamServices
         (accountFromRemoteUrl ctx.remoteUrl)
         ("https://" ++ accountFromRemoteUrl ctx.remoteUrl ++ ".visualstudio.com/"))) := by
  unfold resolveTfvcAddress
  simp [hTS, hv]

lemma resolve_literal_valid (env : Env) (ctx : RepoContext)
    (hTS : isTeamFoundationServicesRepo ctx.remoteUrl = false)
    (hv : validateTfvcCollectionUrl env ctx.remoteUrl = Except.ok true) :
    (resolveTfvcAddress env ctx).1 = [Event.validateCall ctx.remoteUrl] ∧
    (resolveTfvcAddress env ctx).2.1 = ctx := by
  unfold resolveTfvcAddress
  simp [hTS, hv]
  split <;> simp

/-- Claim C5: the validation operation never raises a hard error when the
candidate URL is merely invalid — an underlying failure whose status code is
404 is mapped to the boolean result `false`, and every other underlying
failure is propagated unchanged as a hard error. -/
theorem validation_maps_404_to_false (env : Env) (url : String) (err : HttpError)
    (h : env.apiValidate url = Except.error err) :
    (err.statusCode = some 404 → validateTfvcCollectionUrl env url = Except.ok false) ∧
    (err.statusCode ≠ some 404 → validateTfvcCollectionUrl env url = Except.error err) := by
  unfold validateTfvcCollectionUrl
  rw [h]
  dsimp only
  constructor
  · intro h4
    rw [if_pos h4]
  · intro h4
    rw [if_neg h4]

theorem validation_maps_404_to_false_witness :
    ((⟨some 404⟩ : HttpError).statusCode = some 404 →
      validateTfvcCollectionUrl env404 "https://tfsserver/tfs" = Except.ok false) ∧
    ((⟨some 404⟩ : HttpError).statusCode ≠ some 404 →
      validateTfvcCollectionUrl env404 "https://tfsserver/tfs" = Except.error ⟨some 404⟩) :=
  validation_maps_404_to_false env404 "https://tfsserver/tfs" ⟨some 404⟩ rfl

/-- Claim C7: on the legacy-protocol path, when the SOAP collection fetch
returns no collection object, the resolver converts this into a hard error
that terminates the resolution rather than returning a partial result. -/
theorem soap_absent_collection_hard_error (env : Env) (s c t : String)
    (h : env.soapGetProjectCollection s c = Except.ok none) :
    fetchPhase env false s c t
      = ([Event.soapCollectionFetch s c],
         Except.error (ResolveError.soapCollectionNotFound c s)) := by
  unfold fetchPhase
  simp [h]

theorem soap_absent_collection_hard_error_witness :
    envSoapNone.soapGetProjectCollection "https://tfsserver/tfs/" "DefaultCollection"
      = Except.ok none ∧
    fetchPhase envSoapNone false "https://tfsserver/tfs/" "DefaultCollection" "proj"
      = ([Event.soapCollectionFetch "https://tfsserver/tfs/" "DefaultCollection"],
         Except.error (ResolveError.soapCollectionNotFound "DefaultCollection"
           "https://tfsserver/tfs/")) :=
  ⟨rfl, soap_absent_collection_hard_error envSoapNone "https://tfsserver/tfs/"
    "DefaultCollection" "proj" rfl⟩

/-- Claim C10: for a repository context of the EXTERNAL kind, resolution never
modifies the stored context — in particular the remote URL is left untouched
even when the default-collection fallback is the hypothesis that validates. -/
theorem external_context_never_mutated (env : Env) (ctx : RepoContext)
    (h : ctx.type = RepositoryType.EXTERNAL) :
    (getRepositoryInfo env ctx).finalCtx = ctx := by
  rw [run_finalCtx_eq env ctx (Or.inr h)]
  exact resolve_ctx_of_ne_tfvc env ctx (by rw [h]; intro hh; cases hh)

theorem external_context_never_mutated_witness :
    (getRepositoryInfo envDefaultOk
        ⟨RepositoryType.EXTERNAL, "https://tfsserver/tfs", "proj"⟩).finalCtx
      = ⟨RepositoryType.EXTERNAL, "https://tfsserver/tfs", "proj"⟩ :=
  external_context_never_mutated envDefaultOk
    ⟨RepositoryType.EXTERNAL, "https://tfsserver/tfs", "proj"⟩ rfl

/-- Claim C4: for every hosted-family remote URL, if validation of the derived
candidate succeeds then the resolved collection name is the account name
derived from the URL and the server URL is `https://{account}.visualstudio.com/`;
if validation returns false, the whole resolution fails immediately with the
hosted-validation error after exactly one validation call, so no further
fallback hypothesis is attempted. -/
theorem hosted_resolution_account_or_fail (env : Env) (ctx : RepoContext)
    (h : ctx.type = RepositoryType.TFVC ∨ ctx.type = RepositoryType.EXTERNAL)
    (hTS : isTeamFoundationServicesRepo ctx.remoteUrl = true) :
    (validateTfvcCollectionUrl env
        ("https://" ++ accountFromRemoteUrl ctx.remoteUrl ++ ".visualstudio.com/")
        = Except.ok true →
      resolveTfvcAddress env ctx =
        ([Event.validateCall
            ("https://" ++ accountFromRemoteUrl ctx.remoteUrl ++ ".visualstudio.com/")],
         ctx,
         Except.ok ("https://" ++ accountFromRemoteUrl ctx.remoteUrl ++ ".visualstudio.com/",
                    accountFromRemoteUrl ctx.remoteUrl))) ∧
    (validateTfvcCollectionUrl env
        ("https://" ++ accountFromRemoteUrl ctx.remoteUrl ++ ".visualstudio.com/")
        = Except.ok false →
      getRepositoryInfo env ctx =
        ⟨[Event.validateCall
            ("https://" ++ accountFromRemoteUrl ctx.remoteUrl ++ ".visualstudio.com/")],
         ctx,
         Except.error (ResolveError.validationFailedTeamServices
           (accountFromRemoteUrl ctx.remoteUrl)
           ("https://" ++ accountFromRemoteUrl ctx.remoteUrl ++ ".visualstudio.com/"))⟩) := by
  constructor
  · intro hv
    exact resolve_hosted_valid env ctx hTS hv
  · intro hv
    exact run_eq_of_resolve_error env ctx h _ _ _ (resolve_hosted_invalid env ctx hTS hv)

theorem hosted_resolution_account_or_fail_witness :
    ((⟨RepositoryType.TFVC, "https://fabrikam.visualstudio.com", "proj"⟩ : RepoContext).type
        = RepositoryType.TFVC ∨
     (⟨RepositoryType.TFVC, "https://fabrikam.visualstudio.com", "proj"⟩ : RepoContext).type
        = RepositoryType.EXTERNAL) ∧
    isTeamFoundationServicesRepo "https://fabrikam.visualstudio.com" = true ∧
    ((validateTfvcCollectionUrl envAllOk
        ("https://" ++ accountFromRemoteUrl "https://fabrikam.visualstudio.com"
          ++ ".visualstudio.com/") = Except.ok true →
      resolveTfvcAddress envAllOk
          ⟨RepositoryType.TFVC, "https://fabrikam.visualstudio.com", "proj"⟩ =
        ([Event.validateCall
            ("https://" ++ accountFromRemoteUrl "https://fabrikam.visualstudio.com"
              ++ ".visualstudio.com/")],
         ⟨RepositoryType.TFVC, "https://fabrikam.visualstudio.com", "proj"⟩,
         Except.ok ("https://" ++ accountFromRemoteUrl "https://fabrikam.visualstudio.com"
              ++ ".visualstudio.com/",
            accountFromRemoteUrl "https://fabrikam.visualstudio.com"))) ∧
     (validateTfvcCollectionUrl envAllOk
        ("https://" ++ accountFromRemoteUrl "https://fabrikam.visualstudio.com"
          ++ ".visualstudio.com/") = Except.ok false →
      getRepositoryInfo envAllOk
          ⟨RepositoryType.TFVC, "https://fabrikam.visualstudio.com", "proj"⟩ =
        ⟨[Event.validateCall
            ("https://" ++ accountFromRemoteUrl "https://fabrikam.visualstudio.com"
              ++ ".visualstudio.com/")],
         ⟨RepositoryType.TFVC, "https://fabrikam.visualstudio.com", "proj"⟩,
         Except.error (ResolveError.validationFailedTeamServices
           (accountFromRemoteUrl "https://fabrikam.visualstudio.com")
           ("https://" ++ accountFromRemoteUrl "https://fabrikam.visualstudio.com"
              ++ ".visualstudio.com/"))⟩)) :=
  ⟨Or.inl rfl, by decide,
   hosted_resolution_account_or_fail envAllOk
     ⟨RepositoryType.TFVC, "https://fabrikam.visualstudio.com", "proj"⟩
     (Or.inl rfl) (by decide)⟩

/-- Claim C6: in a centralized-family resolution whose literal-URL validation
succeeds, the default-collection hypothesis is never attempted — the run
performs exactly one validation call (the literal URL) and the stored context
is not modified. -/
theorem literal_success_skips_default (env : Env) (ctx : RepoContext)
    (h : ctx.type = RepositoryType.TFVC ∨ ctx.type = RepositoryType.EXTERNAL)
    (hTS : isTeamFoundationServicesRepo ctx.remoteUrl = false)
    (hv : validateTfvcCollectionUrl env ctx.remoteUrl = Except.ok true) :
    (getRepositoryInfo env ctx).finalCtx = ctx ∧
    (getRepositoryInfo env ctx).trace.filter Event.isValidate
      = [Event.validateCall ctx.remoteUrl] := by
  obtain ⟨htr, hctx⟩ := resolve_literal_valid env ctx hTS hv
  constructor
  · rw [run_finalCtx_eq env ctx h, hctx]
  · rcases hres : resolveTfvcAddress env ctx with ⟨tr, ctx2, res⟩
    have htr2 : tr = [Event.validateCall ctx.remoteUrl] := by rw [← htr, hres]
    cases res with
    | error err =>
      rw [run_eq_of_resolve_error env ctx h tr ctx2 err hres]
      rw [htr2]
      rfl
    | ok sc =>
      obtain ⟨s, c⟩ := sc
      rw [run_eq_of_resolve_ok env ctx h tr ctx2 s c hres]
      dsimp only
      rw [List.filter_append, htr2, fetch_no_validate]
      rfl

theorem literal_success_skips_default_witness :
    ((⟨RepositoryType.TFVC, "https://tfsserver/tfs/Coll", "proj"⟩ : RepoContext).type
        = RepositoryType.TFVC ∨
     (⟨RepositoryType.TFVC, "https://tfsserver/tfs/Coll", "proj"⟩ : RepoContext).type
        = RepositoryType.EXTERNAL) ∧
    isTeamFoundationServicesRepo "https://tfsserver/tfs/Coll" = false ∧
    validateTfvcCollectionUrl envAllOk "https://tfsserver/tfs/Coll" = Except.ok true ∧
    ((getRepositoryInfo envAllOk
        ⟨RepositoryType.TFVC, "https://tfsserver/tfs/Coll", "proj"⟩).finalCtx
      = ⟨RepositoryType.TFVC, "https://tfsserver/tfs/Coll", "proj"⟩ ∧
     (getRepositoryInfo envAllOk
        ⟨RepositoryType.TFVC, "https://tfsserver/tfs/Coll", "proj"⟩).trace.filter
          Event.isValidate
      = [Event.validateCall "https://tfsserver/tfs/Coll"]) :=
  ⟨Or.inl rfl, by decide, rfl,
   literal_success_skips_default envAllOk
     ⟨RepositoryType.TFVC, "https://tfsserver/tfs/Coll", "proj"⟩
     (Or.inl rfl) (by decide) rfl⟩

/-- Claim C2, counterexample: a successful centralized-family resolution whose
collection fetch went through the legacy SOAP client while its project fetch
went through the REST core client — the two protocol paths are mixed within
one resolution, refuting the claim that the centralized family uses the
legacy protocol for both fetches. -/
theorem protocols_mixed_in_centralized_run :
    (getRepositoryInfo envC2 ctxC2).trace
      = [Event.validateCall "http://tfsserver:8080/tfs/DefaultCollection",
         Event.soapCollectionFetch "http://tfsserver:8080/tfs/" "DefaultCollection",
         Event.restProjectFetch "http://tfsserver:8080/tfs/DefaultCollection" "Proj"] ∧
    (getRepositoryInfo envC2 ctxC2).result
      = Except.ok (Outcome.tfvcResolved (getTfvcRepoInfoBlob "http://tfsserver:8080/tfs/"
          "cid" "DefaultCollection" "http://colurl" "pid" "Proj" "desc" "purl")) :=
  ⟨rfl, rfl⟩

/-- Claim C2, as amended: the collection fetch uses exactly one protocol,
chosen once from the hosted/non-hosted branch — a hosted resolution never
performs a SOAP collection fetch and a centralized resolution never performs
a REST collection fetch.  (The project fetch, by contrast, always goes
through the REST core client in both families.) -/
theorem collection_fetch_protocol_fixed_per_family (env : Env) (ctx : RepoContext)
    (h : ctx.type = RepositoryType.TFVC ∨ ctx.type = RepositoryType.EXTERNAL) :
    (isTeamFoundationServicesRepo ctx.remoteUrl = true →
      (getRepositoryInfo env ctx).trace.filter Event.isSoapCollection = []) ∧
    (isTeamFoundationServicesRepo ctx.remoteUrl = false →
      (getRepositoryInfo env ctx).trace.filter Event.isRestCollection = []) := by
  rcases hres : resolveTfvcAddress env ctx with ⟨tr, ctx2, res⟩
  have hsoap : tr.filter Event.isSoapCollection = [] := by
    have hx := resolve_no_soap env ctx
    rw [hres] at hx
    exact hx
  have hrest : tr.filter Event.isRestCollection = [] := by
    have hx := resolve_no_rest env ctx
    rw [hres] at hx
    exact hx
  constructor <;> intro hTS
  · cases res with
    | error err =>
      rw [run_eq_of_resolve_error env ctx h tr ctx2 err hres]
      exact hsoap
    | ok sc =>
      obtain ⟨s, c⟩ := sc
      rw [run_eq_of_resolve_ok env ctx h tr ctx2 s c hres]
      dsimp only
      rw [List.filter_append, hsoap, hTS, fetch_true_no_soap]
      rfl
  · cases res with
    | error err =>
      rw [run_eq_of_resolve_error env ctx h tr ctx2 err hres]
      exact hrest
    | ok sc =>
      obtain ⟨s, c⟩ := sc
      rw [run_eq_of_resolve_ok env ctx h tr ctx2 s c hres]
      dsimp only
      rw [List.filter_append, hrest, hTS, fetch_false_no_rest]
      rfl

theorem collection_fetch_protocol_fixed_per_family_witness :
    (ctxC2.type = RepositoryType.TFVC ∨ ctxC2.type = RepositoryType.EXTERNAL) ∧
    ((isTeamFoundationServicesRepo ctxC2.remoteUrl = true →
      (getRepositoryInfo envC2 ctxC2).trace.filter Event.isSoapCollection = []) ∧
     (isTeamFoundationServicesRepo ctxC2.remoteUrl = false →
      (getRepositoryInfo envC2 ctxC2).trace.filter Event.isRestCollection = [])) :=
  ⟨Or.inl rfl, collection_fetch_protocol_fixed_per_family envC2 ctxC2 (Or.inl rfl)⟩

/-- Claim C1: for the remote URL `https://tfsserver/tfs`, the default-collection
candidate the code constructs is `https://tfsserver/DefaultCollection` — the
relative resolution drops the `/tfs` path segment instead of appending to it —
so even against a server that validates exactly
`https://tfsserver/tfs/DefaultCollection`, the code validates the wrong
candidate and the whole resolution fails with the default-collection error,
leaving the stored remote URL unchanged. -/
theorem default_candidate_drops_path_segment :
    envC1.apiValidate "https://tfsserver/tfs/DefaultCollection" = Except.ok () ∧
    urlResolve "https://tfsserver/tfs" "DefaultCollection"
      = "https://tfsserver/DefaultCollection" ∧
    getRepositoryInfo envC1 ctxC1 =
      ⟨[Event.validateCall "https://tfsserver/tfs",
        Event.validateCall "https://tfsserver/DefaultCollection"],
       ctxC1,
       Except.error ResolveError.validationFailedDefaultCollection⟩ :=
  ⟨rfl, rfl, rfl⟩

/-- Claim C8, counterexample: on the empty URL the decomposition returns the
two-slot array untouched, so the collection-name component is absent
(`undefined` in the source, `none` here) rather than the empty string. -/
theorem collection_component_missing_on_empty :
    (splitTfvcCollectionUrl "").2 = none := rfl

/-- Claim C8, as amended: for every non-empty input the collection-name
component of the decomposition is present, and when no collection name can be
determined (no `/` left after trimming) it is the empty string. -/
theorem collection_component_present_nonempty (url : String) (h : url ≠ "") :
    ((splitTfvcCollectionUrl url).2).isSome = true ∧
    ('/' ∉ (trimTrailingSeparators url).data →
      (splitTfvcCollectionUrl url).2 = some "") := by
  constructor
  · simp only [splitTfvcCollectionUrl, if_neg h]
    split <;> rfl
  · intro hnil
    have hD : '/' ∉ url.data.reverse.dropWhile (· == '/') := by
      intro hm
      exact hnil (List.mem_reverse.mpr hm)
    simp only [splitTfvcCollectionUrl, trimTrailingSeparators, lastIndexOf, if_neg h,
      List.reverse_reverse, List.length_reverse]
    simp only [if_pos (length_takeWhileNe_eq_of_not_mem hD)]
    rw [if_neg (by decide : ¬ (0:Int) ≤ -1)]

theorem collection_component_present_nonempty_witness :
    ("abc" : String) ≠ "" ∧
    (((splitTfvcCollectionUrl "abc").2).isSome = true ∧
     ('/' ∉ (trimTrailingSeparators "abc").data →
      (splitTfvcCollectionUrl "abc").2 = some "")) :=
  ⟨by decide, collection_component_present_nonempty "abc" (by decide)⟩

/-- Claim C9, counterexample: decomposing `https://tfs/` does not yield an
empty collection name with the server URL unchanged. -/
theorem split_bare_host_url_cex :
    splitTfvcCollectionUrl "https://tfs/" ≠ (some "https://tfs/", some "") := by
  decide

/-- Claim C9, as amended: decomposing `https://tfs/` trims the trailing slash
and splits at the last remaining `/` — which lies inside `https://` — so the
server URL is `https://` and the collection name is `tfs`. -/
theorem split_bare_host_url_value :
    splitTfvcCollectionUrl "https://tfs/" = (some "https://", some "tfs") := by
  decide

theorem splitTfvc_refines_spec_witness :
    ("https://tfs/Coll" : String) ≠ "" ∧
    splitTfvcCollectionUrl "https://tfs/Coll"
      = (some (splitSpec "https://tfs/Coll").1, some (splitSpec "https://tfs/Coll").2) :=
  ⟨by decide, splitTfvc_refines_spec "https://tfs/Coll" (by decide)⟩

end Vsts
